import Mathlib

/-!
Shallow embedding of the silk container decoder (`decode.go`).

The byte stream consumed by the Go code is modelled as a `List Nat` of byte
values; reading from a `bufio.Reader` becomes consuming a prefix of the list.
The opaque native decoding capability (the `dllsilk.dll` procedures) is
modelled by the structure `FrameDecoder`: flags saying whether
`CreateDecoder` / `setSampleRate` / `setFramesPerPacket` succeed, and a
function giving, for each compressed payload, either failure or the contents
written into the 3840-byte output buffer together with the reported sample
count (an `int16` written through the `outDataLength` pointer).  Every call
made to the capability is recorded in a trace of `CapCall` events so that
resource-handling claims can be stated.
-/

namespace Silk

/-- Marker byte: `STX byte = 2`; a leading 0x02 is discarded before the magic string is read. -/
def STX : Nat := 2

/-- The 9 ASCII bytes of the magic string `#!SILK_V3`. -/
def HeaderMagic : List Nat := [35, 33, 83, 73, 76, 75, 95, 86, 51]

/-- Source constant `HeaderLen = len(Header)` (= 9). -/
def HeaderLen : Nat := HeaderMagic.length

/-- Source constant `FRAME_LENGTH_MS = 20`. -/
def FRAME_LENGTH_MS : Nat := 20

/-- Source constant `MAX_API_FS_KHZ = 48`. -/
def MAX_API_FS_KHZ : Nat := 48

/-- Source local `frameSize = (FRAME_LENGTH_MS * MAX_API_FS_KHZ) << 1` (= 1920). -/
def frameSize : Nat := (FRAME_LENGTH_MS * MAX_API_FS_KHZ) <<< 1

/-- Source local `buf = make([]byte, frameSize*2)`: the fixed output buffer holds 3840 bytes. -/
def bufLen : Nat := frameSize * 2

/-- One constructor per distinct `fmt.Errorf` site (or Go runtime fault) that
`checkHeader` / `Decode` can produce. -/
inductive DErr where
  | peekFailed
  | readFirstByteFailed
  | invalidFirstByte (b : Nat)
  | headerReadFailed
  | invalidHeader
  | createFailed
  | configFailed
  | blockSizeReadFailed
  | blockReadFailed
  | decodeFailed
  | indexOutOfRange
  | sliceBoundsFault
  deriving DecidableEq, Repr

/-- Model of `reader.Peek(1)`: look at the first byte without consuming it. -/
def peek1 (s : List Nat) : Option Nat := s.head?

/-- Model of `reader.ReadByte()`: consume one byte. -/
def readByte (s : List Nat) : Option (Nat × List Nat) :=
  match s with
  | [] => none
  | b :: t => some (b, t)

/-- The tail of `checkHeader`: `io.ReadFull(reader, header)` of `HeaderLen`
bytes (any short read fails), then byte-exact comparison with the magic.
The `n != HeaderLen` branch of the source is subsumed: `io.ReadFull` returns
`n = len(header)` exactly when it returns no error. -/
def readMagic (s : List Nat) : Except DErr (List Nat) :=
  if HeaderLen ≤ s.length then
    if s.take HeaderLen = HeaderMagic then Except.ok (s.drop HeaderLen)
    else Except.error DErr.invalidHeader
  else Except.error DErr.headerReadFailed

/-- Model of `checkHeader(reader)`: peek the first byte; if it is `STX`, consume it with
`ReadByte` and re-check it against `STX`; then read and check the magic.
Returns the rest of the stream on success. -/
def checkHeader (s : List Nat) : Except DErr (List Nat) :=
  match peek1 s with
  | none => Except.error DErr.peekFailed
  | some first =>
    if first = STX then
      match readByte s with
      | none => Except.error DErr.readFirstByteFailed
      | some (stx, rest) =>
        if stx = STX then readMagic rest
        else Except.error (DErr.invalidFirstByte stx)
    else readMagic s

/-- The block-length field: `binary.Read(reader, binary.LittleEndian, &nByte)`
with `nByte` an `int16`, from the first two bytes (little-endian, signed). -/
def int16OfBytes (b0 b1 : Nat) : Int :=
  let v : Nat := b0 % 256 + 256 * (b1 % 256)
  if v < 32768 then (v : Int) else (v : Int) - 65536

/-- Signed 16-bit wrap-around: the value of an `int16` arithmetic result. -/
def wrap16 (x : Int) : Int := (x + 32768) % 65536 - 32768

/-- Source expression `length = int(outDataLength * 2)`: the multiplication happens in `int16`
arithmetic (`outDataLength` is an `int16`), then the result is sign-extended. -/
def blockAppendLen (count : Int) : Int := wrap16 (2 * count)

/-- The opaque decoding capability (`dllsilk.dll`).  `decode payload` returns
`none` when the native call fails, otherwise the contents the DLL left in the
output buffer together with the `int16` sample count it reported. -/
structure FrameDecoder where
  createOk : Bool
  sampleRateOk : Bool
  framesPerPacketOk : Bool
  decode : List Nat → Option (List Nat × Int)

/-- One recorded invocation of the decoding capability. -/
inductive CapCall where
  | create
  | setSampleRate (rate : Nat)
  | setFramesPerPacket (n : Nat)
  | decodeCall
  | close
  deriving DecidableEq, Repr

/-- The `for` loop of `Decode`, iterating over length-prefixed blocks.

Per iteration: read the 2-byte length (`io.EOF`, i.e. an empty stream, breaks
cleanly; a single remaining byte is `ErrUnexpectedEOF`, a fatal error); a
negative length breaks cleanly; `io.ReadFull(reader, in[:nByte])` returns
`io.EOF` only when zero payload bytes could be read (clean break), a partial
read is a fatal error; a zero-length payload makes `&inData[0]` fault
(`indexOutOfRange`); then the capability is invoked and `buf[:length]` is
appended, where a `length` outside `[0, len(buf)]` makes the slice expression
fault (`sliceBoundsFault`).  The returned trace records each capability
invocation. -/
def blockLoop (d : FrameDecoder) : List Nat → List Nat → List CapCall × Except DErr (List Nat)
  | [], acc => ([], Except.ok acc)
  | [_], _acc => ([], Except.error DErr.blockSizeReadFailed)
  | b0 :: b1 :: rest, acc =>
    let nByte := int16OfBytes b0 b1
    if nByte < 0 then ([], Except.ok acc)
    else
      let n := nByte.toNat
      if rest.length = 0 ∧ 0 < n then ([], Except.ok acc)
      else if rest.length < n then ([], Except.error DErr.blockReadFailed)
      else
        let payload := rest.take n
        if payload.length = 0 then ([], Except.error DErr.indexOutOfRange)
        else
          match d.decode payload with
          | none => ([CapCall.decodeCall], Except.error DErr.decodeFailed)
          | some (out, count) =>
            let len := blockAppendLen count
            if len < 0 ∨ (bufLen : Int) < len then
              ([CapCall.decodeCall], Except.error DErr.sliceBoundsFault)
            else
              let r := blockLoop d (rest.drop n) (acc ++ out.take len.toNat)
              (CapCall.decodeCall :: r.fst, r.snd)
termination_by s _ => s.length
decreasing_by simp; omega

/-- Model of `func (s silk) Decode(src io.Reader) ([]byte, error)`: header check,
decoder-session creation and configuration (sample rate 16000, one frame per
packet), then the block loop.  The first component is the trace of capability
calls made during the run. -/
def Decode (d : FrameDecoder) (src : List Nat) : List CapCall × Except DErr (List Nat) :=
  match checkHeader src with
  | Except.error e => ([], Except.error e)
  | Except.ok rest =>
    if d.createOk = false then ([], Except.error DErr.createFailed)
    else if d.sampleRateOk = false then
      ([CapCall.create, CapCall.setSampleRate 16000], Except.error DErr.configFailed)
    else if d.framesPerPacketOk = false then
      ([CapCall.create, CapCall.setSampleRate 16000, CapCall.setFramesPerPacket 1],
        Except.error DErr.configFailed)
    else
      let r := blockLoop d rest []
      (CapCall.create :: CapCall.setSampleRate 16000 :: CapCall.setFramesPerPacket 1 :: r.fst,
        r.snd)

/-- The 44-byte header built by `pcmToWav`, with `totalAudioLen = len(dst)`
passed in.  Each multi-byte field is written exactly as in the source:
`byte((x >> k) & 0xff)`, i.e. `(x >>> k) % 256`. -/
def pcmHeader (totalAudioLen numchannel saplerate : Nat) : List Nat :=
  let byteRate := 16 * saplerate * numchannel / 8
  let totalDataLen := totalAudioLen + 36
  [82, 73, 70, 70,
   totalDataLen % 256, (totalDataLen >>> 8) % 256,
   (totalDataLen >>> 16) % 256, (totalDataLen >>> 24) % 256,
   87, 65, 86, 69,
   102, 109, 116, 32,
   16, 0, 0, 0,
   1, 0,
   numchannel % 256, 0,
   saplerate % 256, (saplerate >>> 8) % 256,
   (saplerate >>> 16) % 256, (saplerate >>> 24) % 256,
   byteRate % 256, (byteRate >>> 8) % 256,
   (byteRate >>> 16) % 256, (byteRate >>> 24) % 256,
   2 * 16 / 8, 0,
   16, 0,
   100, 97, 116, 97,
   totalAudioLen % 256, (totalAudioLen >>> 8) % 256,
   (totalAudioLen >>> 16) % 256, (totalAudioLen >>> 24) % 256]

/-- Model of `pcmToWav(dst, numchannel, saplerate)`: the 44-byte header followed by the
raw sample bytes. -/
def pcmToWav (dst : List Nat) (numchannel saplerate : Nat) : List Nat :=
  pcmHeader dst.length numchannel saplerate ++ dst

/-- Model of `SilkToWav(src)`: run `Decode` and wrap the accumulated samples as
2-channel, 16000 Hz PCM. -/
def SilkToWav (d : FrameDecoder) (src : List Nat) : Except DErr (List Nat) :=
  match (Decode d src).snd with
  | Except.error e => Except.error e
  | Except.ok data => Except.ok (pcmToWav data 2 16000)

/-- Does a trace contain a `close` event? -/
def tracesClose : List CapCall → Bool
  | [] => false
  | CapCall.close :: _ => true
  | _ :: t => tracesClose t

/-- Is a `checkHeader` result the `invalid first byte` error? -/
def isInvalidFirst : Except DErr (List Nat) → Bool
  | Except.error (DErr.invalidFirstByte _) => true
  | _ => false

/-- Is an `Except` result a success? -/
def isOkE : Except DErr (List Nat) → Bool
  | Except.ok _ => true
  | Except.error _ => false

/-- Spec-side: the first 9 bytes (or, after a leading `STX`, the next 9 bytes)
differ from the magic string. -/
def headerMismatch (s : List Nat) : Bool :=
  match s with
  | [] => true
  | b :: t =>
    if b = STX then decide (t.take HeaderLen ≠ HeaderMagic)
    else decide ((b :: t).take HeaderLen ≠ HeaderMagic)

/-- Spec-side: the reading situations in which the block loop ends cleanly at
the current stream position: nothing left when the length field is read, a
negative length value (whatever trails it), or a positive length followed by
zero available payload bytes. -/
def cleanExitNow (s : List Nat) : Prop :=
  s = [] ∨
    ∃ b0 b1 t, s = b0 :: b1 :: t ∧
      (int16OfBytes b0 b1 < 0 ∨ (1 ≤ int16OfBytes b0 b1 ∧ t = []))

/-- A concrete always-succeeding decoding capability: every call reports 10
samples and fills the output buffer with zero bytes. -/
def stubDecoder : FrameDecoder :=
  { createOk := true
    sampleRateOk := true
    framesPerPacketOk := true
    decode := fun _ => some (List.replicate bufLen 0, 10) }

/-! ### Helper lemmas -/

theorem blockLoop_nil (d : FrameDecoder) (acc : List Nat) :
    blockLoop d [] acc = ([], Except.ok acc) := by
  rw [blockLoop]

theorem blockLoop_single (d : FrameDecoder) (b : Nat) (acc : List Nat) :
    blockLoop d [b] acc = ([], Except.error DErr.blockSizeReadFailed) := by
  rw [blockLoop]

/-- One unfolding of the loop on a stream holding at least a whole length
field, with the local `let`s of the source substituted away. -/
theorem blockLoop_cons_cons (d : FrameDecoder) (b0 b1 : Nat) (rest acc : List Nat) :
    blockLoop d (b0 :: b1 :: rest) acc =
      if int16OfBytes b0 b1 < 0 then ([], Except.ok acc)
      else if rest.length = 0 ∧ 0 < (int16OfBytes b0 b1).toNat then ([], Except.ok acc)
      else if rest.length < (int16OfBytes b0 b1).toNat then
        ([], Except.error DErr.blockReadFailed)
      else if (rest.take (int16OfBytes b0 b1).toNat).length = 0 then
        ([], Except.error DErr.indexOutOfRange)
      else
        match d.decode (rest.take (int16OfBytes b0 b1).toNat) with
        | none => ([CapCall.decodeCall], Except.error DErr.decodeFailed)
        | some (out, count) =>
          if blockAppendLen count < 0 ∨ (bufLen : Int) < blockAppendLen count then
            ([CapCall.decodeCall], Except.error DErr.sliceBoundsFault)
          else
            (CapCall.decodeCall ::
              (blockLoop d (rest.drop (int16OfBytes b0 b1).toNat)
                (acc ++ out.take (blockAppendLen count).toNat)).fst,
              (blockLoop d (rest.drop (int16OfBytes b0 b1).toNat)
                (acc ++ out.take (blockAppendLen count).toNat)).snd) := by
  rw [blockLoop]

/-- A negative length value is a clean break, whatever trails it. -/
theorem blockLoop_neg (d : FrameDecoder) (b0 b1 : Nat) (t acc : List Nat)
    (h : int16OfBytes b0 b1 < 0) :
    blockLoop d (b0 :: b1 :: t) acc = ([], Except.ok acc) := by
  rw [blockLoop_cons_cons, if_pos h]

/-- A positive declared length with zero available payload bytes: `io.ReadFull`
returns `io.EOF` and the loop breaks cleanly. -/
theorem blockLoop_eof_clean (d : FrameDecoder) (b0 b1 : Nat) (acc : List Nat)
    (h : 1 ≤ int16OfBytes b0 b1) :
    blockLoop d [b0, b1] acc = ([], Except.ok acc) := by
  rw [blockLoop_cons_cons, if_neg (by omega)]
  rw [if_pos]
  exact ⟨rfl, by omega⟩

/-- A declared length exceeding the remaining (non-empty) payload: `io.ReadFull`
returns `ErrUnexpectedEOF`, a fatal error. -/
theorem blockLoop_short (d : FrameDecoder) (b0 b1 : Nat) (t acc : List Nat)
    (h1 : 1 ≤ t.length) (h2 : t.length < (int16OfBytes b0 b1).toNat) :
    blockLoop d (b0 :: b1 :: t) acc = ([], Except.error DErr.blockReadFailed) := by
  rw [blockLoop_cons_cons, if_neg (by omega), if_neg (by omega), if_pos h2]

/-- Running `Decode` on a stream whose header validates, with a capability whose
creation and configuration succeed, runs the block loop after recording the
three setup calls. -/
theorem Decode_ok_config (d : FrameDecoder) (s rest : List Nat)
    (hch : checkHeader s = Except.ok rest)
    (h1 : d.createOk = true) (h2 : d.sampleRateOk = true)
    (h3 : d.framesPerPacketOk = true) :
    Decode d s =
      (CapCall.create :: CapCall.setSampleRate 16000 :: CapCall.setFramesPerPacket 1 ::
        (blockLoop d rest []).fst,
        (blockLoop d rest []).snd) := by
  unfold Decode
  rw [hch]
  simp [h1, h2, h3]

/-- The operation `Decode` propagates a header-validation failure before any capability
call. -/
theorem Decode_error (d : FrameDecoder) (s : List Nat) (e : DErr)
    (hch : checkHeader s = Except.error e) :
    Decode d s = ([], Except.error e) := by
  unfold Decode
  rw [hch]

/-- Behaviour of `Decode` when `CreateDecoder` fails. -/
theorem Decode_createFail (d : FrameDecoder) (s rest : List Nat)
    (hch : checkHeader s = Except.ok rest) (h : d.createOk = false) :
    Decode d s = ([], Except.error DErr.createFailed) := by
  unfold Decode
  rw [hch]
  simp [h]

/-- Behaviour of `Decode` when `setSampleRate` fails. -/
theorem Decode_srFail (d : FrameDecoder) (s rest : List Nat)
    (hch : checkHeader s = Except.ok rest) (h1 : d.createOk = true)
    (h2 : d.sampleRateOk = false) :
    Decode d s =
      ([CapCall.create, CapCall.setSampleRate 16000],
        Except.error DErr.configFailed) := by
  unfold Decode
  rw [hch]
  simp [h1, h2]

/-- Behaviour of `Decode` when `setFramesPerPacket` fails. -/
theorem Decode_fppFail (d : FrameDecoder) (s rest : List Nat)
    (hch : checkHeader s = Except.ok rest) (h1 : d.createOk = true)
    (h2 : d.sampleRateOk = true) (h3 : d.framesPerPacketOk = false) :
    Decode d s =
      ([CapCall.create, CapCall.setSampleRate 16000, CapCall.setFramesPerPacket 1],
        Except.error DErr.configFailed) := by
  unfold Decode
  rw [hch]
  simp [h1, h2, h3]

/-! ### Claim C1 -/

/-- Claim C1, counterexample.  The claim says a declared non-negative length
`n` followed by fewer than `n` available bytes always fails with the
stream-corruption error and never ends cleanly.  On the stream
`#!SILK_V3` ++ `[0x05, 0x00]` the length field declares 5 and zero payload
bytes follow, yet `Decode` ends cleanly with the empty sample buffer. -/
theorem c1_counterexample :
    int16OfBytes 5 0 = 5 ∧
    (Decode stubDecoder (HeaderMagic ++ [5, 0])).snd = Except.ok [] := by
  constructor
  · decide
  · rw [Decode_ok_config stubDecoder (HeaderMagic ++ [5, 0]) [5, 0] (by rfl) rfl rfl rfl,
      blockLoop_eof_clean stubDecoder 5 0 [] (by decide)]

/-- Claim C1, amended.  A declared length whose value exceeds the number of
available payload bytes is a fatal stream-corruption error whenever at least
one payload byte is available; but when zero payload bytes follow a positive
declared length, the loop ends cleanly with the samples accumulated so far. -/
theorem c1_truncated_block (d : FrameDecoder) (b0 b1 : Nat) (t acc : List Nat) :
    (1 ≤ t.length → t.length < (int16OfBytes b0 b1).toNat →
      blockLoop d (b0 :: b1 :: t) acc = ([], Except.error DErr.blockReadFailed)) ∧
    (1 ≤ int16OfBytes b0 b1 →
      blockLoop d (b0 :: b1 :: []) acc = ([], Except.ok acc)) := by
  exact ⟨fun h1 h2 => blockLoop_short d b0 b1 t acc h1 h2,
    fun h => blockLoop_eof_clean d b0 b1 acc h⟩

/-- Claim C1, witness for the amended theorem: length field 10 with only three
payload bytes is the fatal error, length field 5 with no payload bytes is a
clean end. -/
theorem c1_truncated_block_witness :
    blockLoop stubDecoder (10 :: 0 :: [1, 2, 3]) [] =
      ([], Except.error DErr.blockReadFailed) ∧
    blockLoop stubDecoder (5 :: 0 :: []) [] = ([], Except.ok []) :=
  ⟨(c1_truncated_block stubDecoder 10 0 [1, 2, 3] []).1 (by decide) (by decide),
    (c1_truncated_block stubDecoder 5 0 [] []).2 (by decide)⟩

/-! ### Claim C2 -/

/-- Claim C2, counterexample.  The claim says end-of-stream encountered while
reading the 2-byte length field is a clean end of iteration.  On the stream
`#!SILK_V3` ++ `[0x00]` the length-field read hits end-of-stream after one
byte (`ErrUnexpectedEOF`), and `Decode` fails instead of ending cleanly. -/
theorem c2_counterexample :
    (Decode stubDecoder (HeaderMagic ++ [0])).snd =
      Except.error DErr.blockSizeReadFailed := by
  rw [Decode_ok_config stubDecoder (HeaderMagic ++ [0]) [0] (by rfl) rfl rfl rfl,
    blockLoop_single stubDecoder 0 []]

/-- Claim C2, amended.  The loop ends cleanly, returning exactly the samples
accumulated so far and invoking the capability no further, in exactly three
reading situations: zero bytes remain when the length field is read (one
remaining byte is a fatal error instead), the length value is negative
(trailing bytes ignored), or a positive declared length is followed by zero
available payload bytes. -/
theorem c2_clean_termination (d : FrameDecoder) (s acc : List Nat) :
    blockLoop d s acc = ([], Except.ok acc) ↔ cleanExitNow s := by
  constructor
  · intro h
    rcases s with _ | ⟨b0, _ | ⟨b1, rest⟩⟩
    · exact Or.inl rfl
    · rw [blockLoop_single] at h
      simp at h
    · rw [blockLoop_cons_cons] at h
      by_cases hneg : int16OfBytes b0 b1 < 0
      · exact Or.inr ⟨b0, b1, rest, rfl, Or.inl hneg⟩
      · rw [if_neg hneg] at h
        by_cases hcl : rest.length = 0 ∧ 0 < (int16OfBytes b0 b1).toNat
        · refine Or.inr ⟨b0, b1, rest, rfl, Or.inr ⟨by omega, ?_⟩⟩
          exact List.length_eq_zero.mp hcl.1
        · rw [if_neg hcl] at h
          by_cases hsh : rest.length < (int16OfBytes b0 b1).toNat
          · rw [if_pos hsh] at h
            simp at h
          · rw [if_neg hsh] at h
            by_cases hz : (rest.take (int16OfBytes b0 b1).toNat).length = 0
            · rw [if_pos hz] at h
              simp at h
            · rw [if_neg hz] at h
              rcases hd : d.decode (rest.take (int16OfBytes b0 b1).toNat) with
                _ | ⟨out, count⟩
              · rw [hd] at h
                simp at h
              · rw [hd] at h
                simp at h
                split at h <;> simp at h
  · intro h
    rcases h with rfl | ⟨b0, b1, t, rfl, hneg | ⟨hpos, rfl⟩⟩
    · exact blockLoop_nil d acc
    · exact blockLoop_neg d b0 b1 t acc hneg
    · exact blockLoop_eof_clean d b0 b1 acc hpos

/-! ### Claim C3 -/

/-- Validation via `checkHeader` consumes a leading `STX` and then behaves exactly as on the
stream without it, whenever the magic string follows. -/
theorem checkHeader_stx (b : List Nat) (hb : b.take HeaderLen = HeaderMagic) :
    checkHeader (STX :: b) = checkHeader b := by
  rcases b with _ | ⟨b0, t⟩
  · simp [HeaderLen, HeaderMagic] at hb
  · have hb' : b0 :: t.take 8 = HeaderMagic := hb
    have hb0 : b0 = 35 := by
      injection hb'
    simp [checkHeader, peek1, readByte, STX, hb0]

theorem SilkToWav_stx (d : FrameDecoder) (b : List Nat)
    (hb : b.take HeaderLen = HeaderMagic) :
    SilkToWav d (STX :: b) = SilkToWav d b := by
  unfold SilkToWav Decode
  rw [checkHeader_stx b hb]

theorem readMagic_not_ok (s : List Nat) (h : s.take HeaderLen ≠ HeaderMagic) :
    isOkE (readMagic s) = false := by
  unfold readMagic
  by_cases h1 : HeaderLen ≤ s.length
  · rw [if_pos h1, if_neg h]
    rfl
  · rw [if_neg h1]
    rfl

/-- Claim C3: prepending the marker byte 0x02 to a stream that starts with the
magic `#!SILK_V3` leaves the conversion output byte-identical; and a stream
whose first 9 bytes (or, after a leading 0x02, next 9 bytes) differ from the
magic fails header validation. -/
theorem c3_header :
    (∀ (d : FrameDecoder) (b : List Nat), b.take HeaderLen = HeaderMagic →
      SilkToWav d (STX :: b) = SilkToWav d b) ∧
    (∀ s : List Nat, headerMismatch s = true → isOkE (checkHeader s) = false) := by
  constructor
  · exact fun d b hb => SilkToWav_stx d b hb
  · intro s hs
    rcases s with _ | ⟨b, t⟩
    · rfl
    · replace hs :
          (if b = STX then decide (t.take HeaderLen ≠ HeaderMagic)
            else decide ((b :: t).take HeaderLen ≠ HeaderMagic)) = true := hs
      by_cases hb : b = STX
      · rw [if_pos hb] at hs
        have h9 : t.take HeaderLen ≠ HeaderMagic := of_decide_eq_true hs
        simp only [checkHeader, peek1, readByte, hb, List.head?, if_pos rfl]
        exact readMagic_not_ok t h9
      · rw [if_neg hb] at hs
        have h9 : (b :: t).take HeaderLen ≠ HeaderMagic := of_decide_eq_true hs
        simp only [checkHeader, peek1, readByte, List.head?, if_neg hb]
        exact readMagic_not_ok (b :: t) h9

/-- Claim C3, witness: a concrete magic-headed stream with the marker
prepended, and a concrete garbage stream. -/
theorem c3_header_witness :
    ((HeaderMagic ++ [255, 255]).take HeaderLen = HeaderMagic ∧
      SilkToWav stubDecoder (STX :: (HeaderMagic ++ [255, 255])) =
        SilkToWav stubDecoder (HeaderMagic ++ [255, 255])) ∧
    (headerMismatch [1, 2, 3] = true ∧ isOkE (checkHeader [1, 2, 3]) = false) :=
  ⟨⟨by decide, c3_header.1 stubDecoder (HeaderMagic ++ [255, 255]) (by decide)⟩,
    ⟨by decide, c3_header.2 [1, 2, 3] (by decide)⟩⟩

/-! ### Claims C4, C5, C9 -/

theorem pcmHeader_length (L c r : Nat) : (pcmHeader L c r).length = 44 := rfl

/-- Header bytes of the produced container are the bytes of `pcmHeader`. -/
theorem pcmToWav_getElem (dst : List Nat) (c r i : Nat) (h : i < 44) :
    (pcmToWav dst c r)[i]? = (pcmHeader dst.length c r)[i]? := by
  unfold pcmToWav
  exact List.getElem?_append_left (by rw [pcmHeader_length]; exact h)

/-- Claim C4: the container is exactly 44 header bytes followed by the sample
bytes unchanged; bytes 4-7 hold `L + 36` and bytes 40-43 hold `L`, both
little-endian. -/
theorem c4_container_layout (dst : List Nat) (numchannel saplerate : Nat) :
    (pcmToWav dst numchannel saplerate).length = 44 + dst.length ∧
    (pcmToWav dst numchannel saplerate)[4]? = some ((dst.length + 36) % 256) ∧
    (pcmToWav dst numchannel saplerate)[5]? = some ((dst.length + 36) / 2 ^ 8 % 256) ∧
    (pcmToWav dst numchannel saplerate)[6]? = some ((dst.length + 36) / 2 ^ 16 % 256) ∧
    (pcmToWav dst numchannel saplerate)[7]? = some ((dst.length + 36) / 2 ^ 24 % 256) ∧
    (pcmToWav dst numchannel saplerate)[40]? = some (dst.length % 256) ∧
    (pcmToWav dst numchannel saplerate)[41]? = some (dst.length / 2 ^ 8 % 256) ∧
    (pcmToWav dst numchannel saplerate)[42]? = some (dst.length / 2 ^ 16 % 256) ∧
    (pcmToWav dst numchannel saplerate)[43]? = some (dst.length / 2 ^ 24 % 256) ∧
    (pcmToWav dst numchannel saplerate).drop 44 = dst := by
  refine ⟨?_, ?_, ?_, ?_, ?_, ?_, ?_, ?_, ?_, ?_⟩
  · unfold pcmToWav
    rw [List.length_append, pcmHeader_length]
  · rw [pcmToWav_getElem dst numchannel saplerate 4 (by omega)]
    show some ((dst.length + 36) % 256) = _
    rfl
  · rw [pcmToWav_getElem dst numchannel saplerate 5 (by omega)]
    show some ((dst.length + 36) >>> 8 % 256) = _
    rw [Nat.shiftRight_eq_div_pow]
  · rw [pcmToWav_getElem dst numchannel saplerate 6 (by omega)]
    show some ((dst.length + 36) >>> 16 % 256) = _
    rw [Nat.shiftRight_eq_div_pow]
  · rw [pcmToWav_getElem dst numchannel saplerate 7 (by omega)]
    show some ((dst.length + 36) >>> 24 % 256) = _
    rw [Nat.shiftRight_eq_div_pow]
  · rw [pcmToWav_getElem dst numchannel saplerate 40 (by omega)]
    rfl
  · rw [pcmToWav_getElem dst numchannel saplerate 41 (by omega)]
    show some (dst.length >>> 8 % 256) = _
    rw [Nat.shiftRight_eq_div_pow]
  · rw [pcmToWav_getElem dst numchannel saplerate 42 (by omega)]
    show some (dst.length >>> 16 % 256) = _
    rw [Nat.shiftRight_eq_div_pow]
  · rw [pcmToWav_getElem dst numchannel saplerate 43 (by omega)]
    show some (dst.length >>> 24 % 256) = _
    rw [Nat.shiftRight_eq_div_pow]
  · unfold pcmToWav
    rw [← pcmHeader_length dst.length numchannel saplerate]
    exact List.drop_left _ _

/-- Claim C5: header bytes 32-33 (block align) are the fixed value 4,
independent of the channel count, and bytes 28-31 are the byte rate
`16 * sample_rate * channels / 8`, little-endian. -/
theorem c5_block_align_byte_rate (dst : List Nat) (numchannel saplerate : Nat) :
    (pcmToWav dst numchannel saplerate)[32]? = some 4 ∧
    (pcmToWav dst numchannel saplerate)[33]? = some 0 ∧
    (pcmToWav dst numchannel saplerate)[28]? =
      some (16 * saplerate * numchannel / 8 % 256) ∧
    (pcmToWav dst numchannel saplerate)[29]? =
      some (16 * saplerate * numchannel / 8 / 2 ^ 8 % 256) ∧
    (pcmToWav dst numchannel saplerate)[30]? =
      some (16 * saplerate * numchannel / 8 / 2 ^ 16 % 256) ∧
    (pcmToWav dst numchannel saplerate)[31]? =
      some (16 * saplerate * numchannel / 8 / 2 ^ 24 % 256) := by
  refine ⟨?_, ?_, ?_, ?_, ?_, ?_⟩
  · rw [pcmToWav_getElem dst numchannel saplerate 32 (by omega)]
    rfl
  · rw [pcmToWav_getElem dst numchannel saplerate 33 (by omega)]
    rfl
  · rw [pcmToWav_getElem dst numchannel saplerate 28 (by omega)]
    rfl
  · rw [pcmToWav_getElem dst numchannel saplerate 29 (by omega)]
    show some (((16 * saplerate * numchannel / 8) >>> 8) % 256) = _
    rw [Nat.shiftRight_eq_div_pow]
  · rw [pcmToWav_getElem dst numchannel saplerate 30 (by omega)]
    show some (((16 * saplerate * numchannel / 8) >>> 16) % 256) = _
    rw [Nat.shiftRight_eq_div_pow]
  · rw [pcmToWav_getElem dst numchannel saplerate 31 (by omega)]
    show some (((16 * saplerate * numchannel / 8) >>> 24) % 256) = _
    rw [Nat.shiftRight_eq_div_pow]

/-- Claim C9: the channel count is stored in the single header byte 22 as
`numchannel % 256` with byte 23 always 0, so any channel count of 256 or more
is emitted changed, while the byte rate is still computed from the full
value. -/
theorem c9_channel_byte (dst : List Nat) (numchannel saplerate : Nat) :
    (pcmToWav dst numchannel saplerate)[22]? = some (numchannel % 256) ∧
    (pcmToWav dst numchannel saplerate)[23]? = some 0 ∧
    (256 ≤ numchannel → numchannel % 256 ≠ numchannel) ∧
    (pcmToWav dst numchannel saplerate)[28]? =
      some (16 * saplerate * numchannel / 8 % 256) := by
  refine ⟨?_, ?_, ?_, ?_⟩
  · rw [pcmToWav_getElem dst numchannel saplerate 22 (by omega)]
    rfl
  · rw [pcmToWav_getElem dst numchannel saplerate 23 (by omega)]
    rfl
  · intro h
    have : numchannel % 256 < 256 := Nat.mod_lt _ (by omega)
    omega
  · rw [pcmToWav_getElem dst numchannel saplerate 28 (by omega)]
    rfl

/-- Claim C9, witness at channel count 300. -/
theorem c9_channel_byte_witness :
    (pcmToWav [] 300 16000)[22]? = some (300 % 256) ∧
    (pcmToWav [] 300 16000)[23]? = some 0 ∧
    300 % 256 ≠ 300 := by
  obtain ⟨h1, h2, h3, _⟩ := c9_channel_byte [] 300 16000
  exact ⟨h1, h2, h3 (by decide)⟩

/-! ### Claim C6 -/

/-- The block loop records only frame-decode invocations: no `close` event. -/
theorem blockLoop_no_close (d : FrameDecoder) :
    ∀ (k : Nat) (s acc : List Nat), s.length ≤ k →
      tracesClose (blockLoop d s acc).fst = false := by
  intro k
  induction k with
  | zero =>
    intro s acc hs
    have hnil : s = [] := List.eq_nil_of_length_eq_zero (by omega)
    subst hnil
    rw [blockLoop_nil]
    rfl
  | succ n ih =>
    intro s acc hs
    rcases s with _ | ⟨b0, _ | ⟨b1, rest⟩⟩
    · rw [blockLoop_nil]
      rfl
    · rw [blockLoop_single]
      rfl
    · rw [blockLoop_cons_cons]
      by_cases h1 : int16OfBytes b0 b1 < 0
      · rw [if_pos h1]
        rfl
      · rw [if_neg h1]
        by_cases h2 : rest.length = 0 ∧ 0 < (int16OfBytes b0 b1).toNat
        · rw [if_pos h2]
          rfl
        · rw [if_neg h2]
          by_cases h3 : rest.length < (int16OfBytes b0 b1).toNat
          · rw [if_pos h3]
            rfl
          · rw [if_neg h3]
            by_cases h4 : (rest.take (int16OfBytes b0 b1).toNat).length = 0
            · rw [if_pos h4]
              rfl
            · rw [if_neg h4]
              rcases hd : d.decode (rest.take (int16OfBytes b0 b1).toNat) with
                _ | ⟨out, count⟩ <;> simp only [hd]
              · rfl
              · by_cases h5 : blockAppendLen count < 0 ∨
                    (bufLen : Int) < blockAppendLen count
                · rw [if_pos h5]
                  rfl
                · rw [if_neg h5]
                  show tracesClose
                    (blockLoop d (rest.drop (int16OfBytes b0 b1).toNat)
                      (acc ++ out.take (blockAppendLen count).toNat)).fst = false
                  refine ih _ _ ?_
                  have hlen := List.length_drop (int16OfBytes b0 b1).toNat rest
                  simp only [List.length_cons] at hs
                  omega

/-- Claim C6: the decode operation never invokes the close operation of the
decoding capability — on no execution path does the capability-call trace of
`Decode` contain a `close` event, so a successfully created session is never
released.  (`closeDecoder` exists in the source but is dead code.) -/
theorem c6_never_closes (d : FrameDecoder) (s : List Nat) :
    tracesClose (Decode d s).fst = false := by
  rcases hch : checkHeader s with e | rest
  · rw [Decode_error d s e hch]
    rfl
  · by_cases h1 : d.createOk = false
    · rw [Decode_createFail d s rest hch h1]
      rfl
    · simp only [Bool.not_eq_false] at h1
      by_cases h2 : d.sampleRateOk = false
      · rw [Decode_srFail d s rest hch h1 h2]
        rfl
      · simp only [Bool.not_eq_false] at h2
        by_cases h3 : d.framesPerPacketOk = false
        · rw [Decode_fppFail d s rest hch h1 h2 h3]
          rfl
        · simp only [Bool.not_eq_false] at h3
          rw [Decode_ok_config d s rest hch h1 h2 h3]
          show tracesClose (blockLoop d rest []).fst = false
          exact blockLoop_no_close d rest.length rest [] le_rfl

/-! ### Claim C7 -/

/-- Claim C7: the conversion is deterministic — identical input byte
sequences (with the same capability behaviour) give byte-identical output —
and a successful decode is wrapped as 2-channel, 16000 Hz PCM after the
session was configured with sample rate 16000 and frames-per-packet 1 (the
first three capability calls of the run). -/
theorem c7_deterministic_wrap :
    (∀ (d : FrameDecoder) (s₁ s₂ : List Nat), s₁ = s₂ →
      SilkToWav d s₁ = SilkToWav d s₂) ∧
    (∀ (d : FrameDecoder) (s data : List Nat),
      (Decode d s).snd = Except.ok data →
      SilkToWav d s = Except.ok (pcmToWav data 2 16000) ∧
      (Decode d s).fst.take 3 =
        [CapCall.create, CapCall.setSampleRate 16000,
          CapCall.setFramesPerPacket 1]) := by
  constructor
  · intro d s₁ s₂ h
    rw [h]
  · intro d s data h
    constructor
    · unfold SilkToWav
      rw [h]
    · rcases hch : checkHeader s with e | rest
      · rw [Decode_error d s e hch] at h
        simp at h
      · by_cases h1 : d.createOk = false
        · rw [Decode_createFail d s rest hch h1] at h
          simp at h
        · simp only [Bool.not_eq_false] at h1
          by_cases h2 : d.sampleRateOk = false
          · rw [Decode_srFail d s rest hch h1 h2] at h
            simp at h
          · simp only [Bool.not_eq_false] at h2
            by_cases h3 : d.framesPerPacketOk = false
            · rw [Decode_fppFail d s rest hch h1 h2 h3] at h
              simp at h
            · simp only [Bool.not_eq_false] at h3
              rw [Decode_ok_config d s rest hch h1 h2 h3]
              rfl

/-- Claim C7, witness: a concrete valid stream whose block stream is just the
negative-length footer. -/
theorem c7_witness :
    SilkToWav stubDecoder (HeaderMagic ++ [255, 255]) =
      Except.ok (pcmToWav [] 2 16000) ∧
    (Decode stubDecoder (HeaderMagic ++ [255, 255])).fst.take 3 =
      [CapCall.create, CapCall.setSampleRate 16000,
        CapCall.setFramesPerPacket 1] := by
  have h : (Decode stubDecoder (HeaderMagic ++ [255, 255])).snd = Except.ok [] := by
    rw [Decode_ok_config stubDecoder (HeaderMagic ++ [255, 255]) [255, 255]
        (by rfl) rfl rfl rfl,
      blockLoop_neg stubDecoder 255 255 [] [] (by decide)]
  exact c7_deterministic_wrap.2 stubDecoder (HeaderMagic ++ [255, 255]) [] h

/-! ### Claim C8 -/

theorem isInvalidFirst_readMagic (s : List Nat) :
    isInvalidFirst (readMagic s) = false := by
  unfold readMagic
  by_cases h1 : HeaderLen ≤ s.length
  · rw [if_pos h1]
    by_cases h2 : s.take HeaderLen = HeaderMagic
    · rw [if_pos h2]
      rfl
    · rw [if_neg h2]
      rfl
  · rw [if_neg h1]
    rfl

/-- Claim C8: the `invalid first byte` error branch of `checkHeader` is
unreachable — when the peeked first byte equals `STX`, the subsequent
`ReadByte` returns that same byte, so the mismatch error is never produced,
for any input stream. -/
theorem c8_invalid_first_unreachable (s : List Nat) :
    isInvalidFirst (checkHeader s) = false := by
  rcases s with _ | ⟨b, t⟩
  · rfl
  · by_cases hb : b = STX
    · have h1 : checkHeader (b :: t) = readMagic t := by
        simp only [checkHeader, peek1, readByte, List.head?, if_pos hb]
      rw [h1]
      exact isInvalidFirst_readMagic t
    · have h1 : checkHeader (b :: t) = readMagic (b :: t) := by
        simp only [checkHeader, peek1, readByte, List.head?, if_neg hb]
      rw [h1]
      exact isInvalidFirst_readMagic (b :: t)

/-! ### Claim C10 -/

/-- Claim C10: one decoded block appends `buf[:length]` with
`length = int16(2 * count)` computed in 16-bit signed arithmetic, where
`count` is the sample count the decoder reports (a count, so a non-negative
`int16` value); the slice into the fixed 3840-byte buffer is in-bounds
exactly when the reported count lies in `[0, 1920]`; a count above 16383
wraps to a negative length; and for an in-range count the block loop appends
exactly `2 * count` bytes sliced from the buffer. -/
theorem c10_append_arith (count : Int) (hlo : 0 ≤ count)
    (hhi : count ≤ 32767) :
    ((0 ≤ blockAppendLen count ∧ blockAppendLen count ≤ (bufLen : Int)) ↔
      (0 ≤ count ∧ count ≤ 1920)) ∧
    (16383 < count → blockAppendLen count < 0) ∧
    (∀ (d : FrameDecoder) (b0 b1 : Nat) (t acc out : List Nat),
      d.decode t = some (out, count) →
      1 ≤ int16OfBytes b0 b1 →
      t.length = (int16OfBytes b0 b1).toNat →
      out.length = bufLen →
      0 ≤ count → count ≤ 1920 →
      blockLoop d (b0 :: b1 :: t) acc =
        ([CapCall.decodeCall],
          Except.ok (acc ++ out.take (blockAppendLen count).toNat)) ∧
      (acc ++ out.take (blockAppendLen count).toNat).length =
        acc.length + (2 * count).toNat) := by
  have hbuf : (bufLen : Int) = 3840 := by decide
  have hbufn : bufLen = 3840 := by decide
  refine ⟨?_, ?_, ?_⟩
  · simp only [blockAppendLen, wrap16, hbuf]
    omega
  · intro h
    simp only [blockAppendLen, wrap16]
    omega
  · intro d b0 b1 t acc out hdec hpos hlen hout hc0 hc1
    have hn1 : 1 ≤ (int16OfBytes b0 b1).toNat := by omega
    have hble : blockAppendLen count = 2 * count := by
      simp only [blockAppendLen, wrap16]
      omega
    have htake : t.take (int16OfBytes b0 b1).toNat = t := by
      rw [← hlen]
      exact List.take_length t
    have hdrop : t.drop (int16OfBytes b0 b1).toNat = [] := by
      rw [← hlen]
      exact List.drop_length t
    constructor
    · rw [blockLoop_cons_cons, if_neg (by omega), if_neg (by omega),
        if_neg (by omega), htake]
      rw [if_neg (by omega)]
      simp only [hdec]
      rw [if_neg (by rw [hble, hbuf]; omega), hdrop, blockLoop_nil]
    · rw [List.length_append, List.length_take, hout, hble, hbufn]
      omega

/-- Claim C10, witness: a single block of four bytes with the stub capability
reporting 10 samples appends 20 bytes. -/
theorem c10_append_arith_witness :
    ((0 ≤ blockAppendLen 10 ∧ blockAppendLen 10 ≤ (bufLen : Int)) ↔
      (0 ≤ (10 : Int) ∧ (10 : Int) ≤ 1920)) ∧
    blockLoop stubDecoder (4 :: 0 :: [9, 9, 9, 9]) [] =
      ([CapCall.decodeCall],
        Except.ok ([] ++ (List.replicate bufLen 0).take (blockAppendLen 10).toNat)) ∧
    (([] : List Nat) ++ (List.replicate bufLen 0).take (blockAppendLen 10).toNat).length =
      ([] : List Nat).length + ((2 : Int) * 10).toNat := by
  have h := c10_append_arith 10 (by decide) (by decide)
  have h3 := h.2.2 stubDecoder 4 0 [9, 9, 9, 9] [] (List.replicate bufLen 0)
    rfl (by decide) (by decide) (by simp) (by decide) (by decide)
  exact ⟨h.1, h3.1, h3.2⟩

end Silk
